import Mathlib

set_option maxHeartbeats 1000000
set_option maxRecDepth 10000

namespace GeoFilter

/-!
Shallow embedding of the geofiltering-thruster middleware
(`internal/geoip_middleware.go` and the handler-chain builder `NewHandler`).

IP addresses are modelled in the 16-byte form that Go's `net.ParseIP`
always produces (IPv4 addresses are stored 4-in-6 mapped); stdlib
capabilities that live outside this repository (`net.ParseIP`, the geoip2
reader, `filepath.Abs`) are passed in as function parameters, while the
stdlib string helpers the middleware calls (`net.SplitHostPort`,
`strings.EqualFold` restricted to ASCII) are modelled concretely.
-/

/-- A parsed IP address in its 16-byte representation, as produced by Go's
`net.ParseIP` (IPv4 addresses appear in 4-in-6 mapped form). -/
structure IPAddr where
  b0 : Fin 256
  b1 : Fin 256
  b2 : Fin 256
  b3 : Fin 256
  b4 : Fin 256
  b5 : Fin 256
  b6 : Fin 256
  b7 : Fin 256
  b8 : Fin 256
  b9 : Fin 256
  b10 : Fin 256
  b11 : Fin 256
  b12 : Fin 256
  b13 : Fin 256
  b14 : Fin 256
  b15 : Fin 256
deriving DecidableEq

/-- The IPv6 loopback address `::1` (Go's `net.IPv6loopback`). -/
def ipv6Loopback : IPAddr := ⟨0,0,0,0,0,0,0,0,0,0,0,0,0,0,0,1⟩

/-- Model of Go's `IP.To4`: succeeds exactly on 4-in-6 mapped addresses,
returning the four IPv4 bytes. -/
def to4 (a : IPAddr) : Option (Fin 256 × Fin 256 × Fin 256 × Fin 256) :=
  if a.b0 = 0 ∧ a.b1 = 0 ∧ a.b2 = 0 ∧ a.b3 = 0 ∧ a.b4 = 0 ∧ a.b5 = 0 ∧
     a.b6 = 0 ∧ a.b7 = 0 ∧ a.b8 = 0 ∧ a.b9 = 0 ∧ a.b10 = 255 ∧ a.b11 = 255
  then some (a.b12, a.b13, a.b14, a.b15) else none

/-- Model of Go's `IP.IsLoopback`: if the address is IPv4 (4-in-6), its first
IPv4 byte is 127; otherwise it equals `::1`. -/
def isLoopback (a : IPAddr) : Bool :=
  match to4 a with
  | some v => decide (v.1 = 127)
  | none => decide (a = ipv6Loopback)

/-- The IPv4 private-range checks of `isLocalOrInternalIP` (the body of the
`if ipv4 := ip.To4(); ipv4 != nil` block): 10.0.0.0/8, 172.16.0.0/12,
192.168.0.0/16, 169.254.0.0/16. -/
def v4Private (a : IPAddr) : Bool :=
  match to4 a with
  | none => false
  | some (x, y, _, _) =>
    decide (x = 10) ||
    (decide (x = 172) && decide (16 ≤ y.val) && decide (y.val ≤ 31)) ||
    (decide (x = 192) && decide (y = 168)) ||
    (decide (x = 169) && decide (y = 254))

/-- Embedding of `isLocalOrInternalIP` from `internal/geoip_middleware.go`:
loopback, `::1`, the four IPv4 private/link-local ranges, IPv6 unique-local
`fc00::/7` (`ip[0]&0xfe == 0xfc`), IPv6 link-local `fe80::/10`
(`ip[0] == 0xfe && ip[1]&0xc0 == 0x80`). The `len(ip) == 16` guards are
always true in the 16-byte model. -/
def isLocalOrInternalIP (a : IPAddr) : Bool :=
  isLoopback a ||
  decide (a = ipv6Loopback) ||
  v4Private a ||
  decide (a.b0.val &&& 0xfe = 0xfc) ||
  (decide (a.b0.val = 0xfe) && decide (a.b1.val &&& 0xc0 = 0x80))

/-- The classifier as the specification describes it (claim C4): IPv4
loopback 127.0.0.0/8 and the IPv6 loopback; IPv4 ranges 10.0.0.0/8,
172.16.0.0/12, 192.168.0.0/16, 169.254.0.0/16; IPv6 unique-local fc00::/7
(high 7 bits of the first byte equal 1111110); IPv6 link-local fe80::/10
(first byte 11111110, next two bits 10); everything else public. -/
def specLocalInternal (a : IPAddr) : Bool :=
  (match to4 a with
   | none => false
   | some (x, y, _, _) =>
     decide (x = 127) || decide (x = 10) ||
     decide (x = 172 ∧ 16 ≤ y.val ∧ y.val ≤ 31) ||
     decide (x = 192 ∧ y = 168) ||
     decide (x = 169 ∧ y = 254)) ||
  decide (a = ipv6Loopback) ||
  decide (a.b0.val / 2 = 126) ||
  decide (a.b0.val = 254 ∧ a.b1.val / 64 = 2)

/-- Splits a character list at its last colon: `lastColonSplit s = some (h, p)`
iff `s = h ++ ':' :: p` with `p` colon-free. Models the
`strings.LastIndexByte(hostPort, ':')` step of Go's `net.SplitHostPort`. -/
def lastColonSplit : List Char → Option (List Char × List Char)
  | [] => none
  | c :: rest =>
    match lastColonSplit rest with
    | some (h, p) => some (c :: h, p)
    | none => if c = ':' then some ([], rest) else none

/-- Splits a character list at its first `']'`. Models the
`strings.IndexByte(hostPort, ']')` step of Go's `net.SplitHostPort`. -/
def bracketSplit : List Char → Option (List Char × List Char)
  | [] => none
  | c :: rest =>
    if c = ']' then some ([], rest)
    else
      match bracketSplit rest with
      | some (h, p) => some (c :: h, p)
      | none => none

/-- Model of Go's `net.SplitHostPort`. Bracketed form: `[host]:port` where the
colon after `']'` is the last colon and no stray brackets occur. Plain form:
split at the last colon; the host part may contain no further colon and the
whole string no brackets. All error returns collapse to `none`. -/
def splitHostPort (s : List Char) : Option (List Char × List Char) :=
  if s.head? = some '[' then
    match bracketSplit s.tail with
    | none => none
    | some (h, rest) =>
      match rest with
      | [] => none
      | c :: p =>
        if c = ':' then
          if ':' ∈ p ∨ '[' ∈ h ∨ '[' ∈ p ∨ ']' ∈ p then none else some (h, p)
        else none
  else
    match lastColonSplit s with
    | some (h, p) => if ':' ∈ h ∨ '[' ∈ s ∨ ']' ∈ s then none else some (h, p)
    | none => none

/-- The host the middleware parses: `net.SplitHostPort`'s host part when the
split succeeds, otherwise the whole string (`host = remoteAddr` on error). -/
def hostOf (s : List Char) : List Char :=
  match splitHostPort s with
  | some hp => hp.1
  | none => s

/-- The textual address the middleware chooses: the `X-Forwarded-For` header
value when present and non-empty (Go's `Header.Get` returns `""` for an
absent header), otherwise `r.RemoteAddr`. -/
def chosenAddr (xff : Option (List Char)) (remote : List Char) : List Char :=
  match xff with
  | some v => if v = [] then remote else v
  | none => remote

/-- The extracted host string of `GeoIPMiddleware.ServeHTTP`: choose the
forwarded-or-peer address, then strip a trailing port. -/
def extractedHost (xff : Option (List Char)) (remote : List Char) : List Char :=
  hostOf (chosenAddr xff remote)

/-- Character-list case folding: equal lengths and ASCII-lowercase-equal
characters pointwise. -/
def foldEqChars : List Char → List Char → Bool
  | [], [] => true
  | a :: s, b :: t => (a.toLower == b.toLower) && foldEqChars s t
  | _ :: _, [] => false
  | [], _ :: _ => false

/-- Model of `strings.EqualFold` restricted to ASCII case folding (country
codes are ASCII). -/
def equalFold (s t : String) : Bool := foldEqChars s.data t.data

/-- Result of `m.reader.Country(ip)`: either an error, or success carrying
`country.Country.IsoCode` (possibly `""`). -/
inductive LookupResult
  | failure
  | success (code : String)
deriving DecidableEq

/-- Observable outcome of the middleware for one request: a short-circuit
`http.Error` rejection (status and body), or a pass to the downstream
handler, carrying the header annotation written on the request, if any. -/
inductive Outcome
  | reject (status : Nat) (body : String)
  | pass (annot : Option (String × String))
deriving DecidableEq

/-- Full observable result: the outcome plus whether the country lookup was
invoked. -/
structure ServeResult where
  outcome : Outcome
  lookedUp : Bool
deriving DecidableEq

/-- The fixed header key under which the country code is exposed downstream. -/
def geoHeaderKey : String := "X-GeoIP-Country"

/-- Pass-through after a successful lookup: the code is written under
`geoHeaderKey` only when non-empty (`if countryCode != ""`). -/
def passResult (code : String) : ServeResult :=
  ⟨.pass (if code = "" then none else some (geoHeaderKey, code)), true⟩

/-- The country-filtering rules applied after a successful lookup (lines
57-89 of the middleware): the allow list, when non-empty, is exclusive;
otherwise the block list, when non-empty, is consulted; otherwise pass.
Matching is `strings.EqualFold` against each list member in turn. -/
def decision (allow block : List String) (code : String) : ServeResult :=
  if 0 < allow.length then
    if allow.any (fun m => equalFold code m) then passResult code
    else ⟨.reject 403 "Access denied", true⟩
  else if 0 < block.length then
    if block.any (fun m => equalFold code m) then
      ⟨.reject 403 "Access denied", true⟩
    else passResult code
  else passResult code

/-- Embedding of `GeoIPMiddleware.ServeHTTP`. `parse` models `net.ParseIP`
and `lookup` models `m.reader.Country`; both are stdlib/external
capabilities. The control flow mirrors the Go source: extract and strip the
address, bypass on parse failure, bypass local/internal addresses without a
lookup, fail open on lookup error, then apply the allow/block rules of
`decision` and annotate on pass-through. -/
def serveHTTP (allow block : List String) (xff : Option (List Char))
    (remote : List Char) (parse : List Char → Option IPAddr)
    (lookup : IPAddr → LookupResult) : ServeResult :=
  let host := extractedHost xff remote
  match parse host with
  | none => ⟨.pass none, false⟩
  | some ip =>
    if isLocalOrInternalIP ip then ⟨.pass none, false⟩
    else
      match lookup ip with
      | .failure => ⟨.pass none, true⟩
      | .success code => decision allow block code

/-- Configuration consumed by `NewHandler` (`HandlerOptions` in the source);
the `Cache` and `url.URL` payloads are irrelevant to chain shape and carried
as plain values. -/
structure HandlerOptions where
  badGatewayPage : String
  maxCacheableResponseBody : Int
  maxRequestBody : Int
  targetUrl : String
  xSendfileEnabled : Bool
  gzipCompressionEnabled : Bool
  forwardHeaders : Bool
  logRequests : Bool
  geoIP2Enabled : Bool
  allowCountries : List String
  blockCountries : List String

/-- Symbolic handler chain: each constructor is one wrapping layer of
`NewHandler`, carrying the parameters the corresponding Go constructor
receives and the wrapped inner handler. -/
inductive Handler
  | proxy (targetUrl badGatewayPage : String) (forwardHeaders : Bool)
  | cacheH (maxCacheable : Int) (h : Handler)
  | sendfile (enabled : Bool) (h : Handler)
  | requestStart (h : Handler)
  | gzip (h : Handler)
  | maxBytes (limit : Int) (h : Handler)
  | geoIP (allow block : List String) (h : Handler)
  | logging (h : Handler)
deriving DecidableEq

/-- Diagnostics `NewHandler` emits while building the chain (the `slog`
calls in the geoIP2 branch). -/
inductive Diag
  | geoIPOpenFailed
  | geoIPLoaded
deriving DecidableEq

/-- Embedding of `NewHandler` from the chain-builder source file.
`geoOpenOk` models whether `geoip2.Open(FindGeoIP2Database())` succeeded —
an external filesystem outcome. Returns the composed handler and the
diagnostics emitted during construction. -/
def NewHandler (o : HandlerOptions) (geoOpenOk : Bool) : Handler × List Diag :=
  let h := Handler.proxy o.targetUrl o.badGatewayPage o.forwardHeaders
  let h := Handler.cacheH o.maxCacheableResponseBody h
  let h := Handler.sendfile o.xSendfileEnabled h
  let h := Handler.requestStart h
  let h := if o.gzipCompressionEnabled then Handler.gzip h else h
  let h := if 0 < o.maxRequestBody then Handler.maxBytes o.maxRequestBody h else h
  let hd : Handler × List Diag :=
    if o.geoIP2Enabled then
      if geoOpenOk then
        (Handler.geoIP o.allowCountries o.blockCountries h, [Diag.geoIPLoaded])
      else (h, [Diag.geoIPOpenFailed])
    else (h, [])
  let h := if o.logRequests then Handler.logging hd.1 else hd.1
  (h, hd.2)

/-- Layer tags, used to state ordering properties of the chain. -/
inductive Tag
  | proxyT
  | cacheT
  | sendfileT
  | requestStartT
  | gzipT
  | maxBytesT
  | geoIPT
  | loggingT
deriving DecidableEq

/-- The layer tags of a chain, outermost first. -/
def layers : Handler → List Tag
  | .proxy _ _ _ => [Tag.proxyT]
  | .cacheH _ h => Tag.cacheT :: layers h
  | .sendfile _ h => Tag.sendfileT :: layers h
  | .requestStart h => Tag.requestStartT :: layers h
  | .gzip h => Tag.gzipT :: layers h
  | .maxBytes _ h => Tag.maxBytesT :: layers h
  | .geoIP _ _ h => Tag.geoIPT :: layers h
  | .logging h => Tag.loggingT :: layers h

/-- The candidate database paths of `FindGeoIP2Database`, in source order. -/
def possiblePaths : List String :=
  ["./GeoLite2-Country.mmdb", "./data/GeoLite2-Country.mmdb",
   "./storage/GeoLite2-Country.mmdb", "./fixtures/GeoLite2-Country.mmdb"]

/-- The candidate loop of `FindGeoIP2Database`: return the first candidate
whose `filepath.Abs` (the `abs` parameter, an external capability) succeeds
with a non-empty result; no filesystem existence check is ever made. -/
def findFrom (abs : String → Option String) : List String → String
  | [] => ""
  | p :: rest =>
    match abs p with
    | some a => if a ≠ "" then a else findFrom abs rest
    | none => findFrom abs rest

/-- Embedding of `FindGeoIP2Database`. -/
def FindGeoIP2Database (abs : String → Option String) : String :=
  findFrom abs possiblePaths

/-- The public test address 203.0.113.1 in 4-in-6 mapped form. -/
def pubIP : IPAddr := ⟨0,0,0,0,0,0,0,0,0,0,255,255,203,0,113,1⟩

/-- The loopback address 127.0.0.1 in 4-in-6 mapped form. -/
def loIP : IPAddr := ⟨0,0,0,0,0,0,0,0,0,0,255,255,127,0,0,1⟩

/-- A concrete parse capability for witnesses: parses exactly
"203.0.113.1" and "127.0.0.1". -/
def parseC : List Char → Option IPAddr := fun s =>
  if s = "203.0.113.1".data then some pubIP
  else if s = "127.0.0.1".data then some loIP
  else none

/-- A concrete lookup capability that reports country "CA" everywhere. -/
def lookupCA : IPAddr → LookupResult := fun _ => .success "CA"

/-- A concrete lookup capability that reports an empty country code. -/
def lookupEmpty : IPAddr → LookupResult := fun _ => .success ""

/-- A concrete lookup capability that always fails. -/
def lookupFail : IPAddr → LookupResult := fun _ => .failure

/-- A concrete configuration with every optional layer enabled. -/
def optsAll : HandlerOptions :=
  { badGatewayPage := "bad.html"
    maxCacheableResponseBody := 1024
    maxRequestBody := 2048
    targetUrl := "http://localhost:3000"
    xSendfileEnabled := true
    gzipCompressionEnabled := true
    forwardHeaders := true
    logRequests := true
    geoIP2Enabled := true
    allowCountries := ["US"]
    blockCountries := [] }

/-- A concrete abs capability for witnesses: prefixes a fixed directory. -/
def absC : String → Option String := fun p =>
  if p = "./GeoLite2-Country.mmdb" then some "/srv/GeoLite2-Country.mmdb" else none

/-- A concrete abs capability that always fails. -/
def absFail : String → Option String := fun _ => none

theorem land_fe_iff (x : Fin 256) : x.val &&& 0xfe = 0xfc ↔ x.val / 2 = 126 := by
  revert x; decide

theorem land_c0_iff (x : Fin 256) : x.val &&& 0xc0 = 0x80 ↔ x.val / 64 = 2 := by
  revert x; decide

/-- C4: the classifier recognizes exactly the ranges the specification lists;
everything else is public. -/
theorem classifier_exact (a : IPAddr) : isLocalOrInternalIP a = specLocalInternal a := by
  unfold isLocalOrInternalIP specLocalInternal isLoopback v4Private
  cases hto : to4 a with
  | none =>
    simp only [hto]
    by_cases p1 : a = ipv6Loopback <;>
      by_cases p2 : a.b0.val &&& 0xfe = 0xfc <;>
      by_cases p3 : a.b0.val = 0xfe <;>
      by_cases p4 : a.b1.val &&& 0xc0 = 0x80 <;>
      simp [p1, p2, p3, p4, (land_fe_iff a.b0).symm, (land_c0_iff a.b1).symm]
  | some v =>
    obtain ⟨x, y, z, w⟩ := v
    have hcond : a.b0 = 0 ∧ a.b1 = 0 ∧ a.b2 = 0 ∧ a.b3 = 0 ∧ a.b4 = 0 ∧ a.b5 = 0 ∧
        a.b6 = 0 ∧ a.b7 = 0 ∧ a.b8 = 0 ∧ a.b9 = 0 ∧ a.b10 = 255 ∧ a.b11 = 255 := by
      by_contra hc
      simp [to4, hc] at hto
    have hb0 : a.b0 = 0 := hcond.1
    have hb1 : a.b1 = 0 := hcond.2.1
    have hnl : a ≠ ipv6Loopback := by
      intro he
      have h10 : a.b10 = 255 := hcond.2.2.2.2.2.2.2.2.2.2.1
      rw [he] at h10
      simp [ipv6Loopback] at h10
    simp only [hto, hb0, hb1]
    by_cases q1 : x = 127 <;>
      by_cases q2 : x = 10 <;>
      by_cases q3 : x = 172 <;>
      by_cases q4 : (16 : ℕ) ≤ y.val <;>
      by_cases q5 : y.val ≤ 31 <;>
      by_cases q6 : x = 192 <;>
      by_cases q7 : y = 168 <;>
      by_cases q8 : x = 169 <;>
      by_cases q9 : y = 254 <;>
      simp [q1, q2, q3, q4, q5, q6, q7, q8, q9, hnl]

theorem serve_parse_none (allow block : List String) (xff : Option (List Char))
    (remote : List Char) (parse : List Char → Option IPAddr)
    (lookup : IPAddr → LookupResult)
    (hp : parse (extractedHost xff remote) = none) :
    serveHTTP allow block xff remote parse lookup = ⟨.pass none, false⟩ := by
  simp [serveHTTP, hp]

theorem serve_local (allow block : List String) (xff : Option (List Char))
    (remote : List Char) (parse : List Char → Option IPAddr)
    (lookup : IPAddr → LookupResult) (ip : IPAddr)
    (hp : parse (extractedHost xff remote) = some ip)
    (hl : isLocalOrInternalIP ip = true) :
    serveHTTP allow block xff remote parse lookup = ⟨.pass none, false⟩ := by
  simp [serveHTTP, hp, hl]

theorem serve_lookup_failure (allow block : List String) (xff : Option (List Char))
    (remote : List Char) (parse : List Char → Option IPAddr)
    (lookup : IPAddr → LookupResult) (ip : IPAddr)
    (hp : parse (extractedHost xff remote) = some ip)
    (hl : isLocalOrInternalIP ip = false)
    (hf : lookup ip = .failure) :
    serveHTTP allow block xff remote parse lookup = ⟨.pass none, true⟩ := by
  simp [serveHTTP, hp, hl, hf]

theorem serve_success (allow block : List String) (xff : Option (List Char))
    (remote : List Char) (parse : List Char → Option IPAddr)
    (lookup : IPAddr → LookupResult) (ip : IPAddr) (code : String)
    (hp : parse (extractedHost xff remote) = some ip)
    (hl : isLocalOrInternalIP ip = false)
    (hs : lookup ip = .success code) :
    serveHTTP allow block xff remote parse lookup = decision allow block code := by
  simp [serveHTTP, hp, hl, hs]

/-- C2: a request whose address parses to a local/internal address passes
through unconditionally — no lookup, no rejection, no header annotation —
regardless of the configured lists. -/
theorem local_bypass (allow block : List String) (xff : Option (List Char))
    (remote : List Char) (parse : List Char → Option IPAddr)
    (lookup : IPAddr → LookupResult) (ip : IPAddr)
    (hp : parse (extractedHost xff remote) = some ip)
    (hl : isLocalOrInternalIP ip = true) :
    serveHTTP allow block xff remote parse lookup = ⟨.pass none, false⟩ :=
  serve_local allow block xff remote parse lookup ip hp hl

theorem local_bypass_witness :
    serveHTTP ["US"] ["CN"] (some "127.0.0.1".data) "10.9.8.7:443".data
      parseC lookupCA = ⟨.pass none, false⟩ :=
  local_bypass ["US"] ["CN"] (some "127.0.0.1".data) "10.9.8.7:443".data
    parseC lookupCA loIP (by decide) (by decide)

/-- C3: on parse failure, or on lookup failure for a public address, the
request is never rejected and reaches the downstream handler with no
annotation and no filtering. -/
theorem fail_open (allow block : List String) (xff : Option (List Char))
    (remote : List Char) (parse : List Char → Option IPAddr)
    (lookup : IPAddr → LookupResult) :
    (parse (extractedHost xff remote) = none →
      serveHTTP allow block xff remote parse lookup = ⟨.pass none, false⟩) ∧
    (∀ ip, parse (extractedHost xff remote) = some ip →
      isLocalOrInternalIP ip = false → lookup ip = .failure →
      serveHTTP allow block xff remote parse lookup = ⟨.pass none, true⟩) :=
  ⟨fun hp => serve_parse_none allow block xff remote parse lookup hp,
   fun ip hp hl hf => serve_lookup_failure allow block xff remote parse lookup ip hp hl hf⟩

theorem fail_open_witness :
    serveHTTP ["US"] [] (some "bogus-address".data) "r".data parseC lookupCA =
      ⟨.pass none, false⟩ ∧
    serveHTTP ["US"] [] (some "203.0.113.1".data) "r".data parseC lookupFail =
      ⟨.pass none, true⟩ :=
  ⟨(fail_open ["US"] [] (some "bogus-address".data) "r".data parseC lookupCA).1
      (by decide),
   (fail_open ["US"] [] (some "203.0.113.1".data) "r".data parseC lookupFail).2
      pubIP (by decide) (by decide) rfl⟩

/-- C1: for a public address with a successful lookup returning `code`: a
non-empty allow list is exclusive (reject unless a case-insensitive match,
and the block list is never consulted — the result is independent of it);
else a non-empty block list rejects exactly on a match; else the request
passes through. -/
theorem allow_block_precedence (allow block : List String)
    (xff : Option (List Char)) (remote : List Char)
    (parse : List Char → Option IPAddr) (lookup : IPAddr → LookupResult)
    (ip : IPAddr) (code : String)
    (hp : parse (extractedHost xff remote) = some ip)
    (hpub : isLocalOrInternalIP ip = false)
    (hlk : lookup ip = .success code) :
    (allow ≠ [] →
      ((∃ m ∈ allow, equalFold code m = true) →
        serveHTTP allow block xff remote parse lookup = passResult code) ∧
      ((¬ ∃ m ∈ allow, equalFold code m = true) →
        serveHTTP allow block xff remote parse lookup =
          ⟨.reject 403 "Access denied", true⟩) ∧
      (∀ block₂, serveHTTP allow block₂ xff remote parse lookup =
        serveHTTP allow block xff remote parse lookup)) ∧
    (allow = [] → block ≠ [] →
      ((∃ m ∈ block, equalFold code m = true) →
        serveHTTP allow block xff remote parse lookup =
          ⟨.reject 403 "Access denied", true⟩) ∧
      ((¬ ∃ m ∈ block, equalFold code m = true) →
        serveHTTP allow block xff remote parse lookup = passResult code)) ∧
    (allow = [] → block = [] →
      serveHTTP allow block xff remote parse lookup = passResult code) := by
  have hs := fun b => serve_success allow b xff remote parse lookup ip code hp hpub hlk
  refine ⟨?_, ?_, ?_⟩
  · intro hne
    have hlen : 0 < allow.length := List.length_pos.mpr hne
    refine ⟨?_, ?_, ?_⟩
    · rintro ⟨m, hm, hf⟩
      rw [hs block]
      unfold decision
      rw [if_pos hlen, if_pos (List.any_eq_true.mpr ⟨m, hm, hf⟩)]
    · intro hno
      rw [hs block]
      unfold decision
      rw [if_pos hlen, if_neg (fun hc => hno (List.any_eq_true.mp hc))]
    · intro block₂
      rw [hs block, hs block₂]
      unfold decision
      rw [if_pos hlen, if_pos hlen]
  · intro ha hb
    subst ha
    have hlen : 0 < block.length := List.length_pos.mpr hb
    refine ⟨?_, ?_⟩
    · rintro ⟨m, hm, hf⟩
      rw [hs block]
      unfold decision
      simp only [List.length_nil, lt_irrefl, if_false]
      rw [if_pos hlen, if_pos (List.any_eq_true.mpr ⟨m, hm, hf⟩)]
    · intro hno
      rw [hs block]
      unfold decision
      simp only [List.length_nil, lt_irrefl, if_false]
      rw [if_pos hlen, if_neg (fun hc => hno (List.any_eq_true.mp hc))]
  · intro ha hb
    subst ha; subst hb
    rw [hs []]
    unfold decision
    simp

theorem allow_block_precedence_witness :
    serveHTTP ["US"] ["ZZ"] (some "203.0.113.1".data) "peer".data
      parseC lookupCA = ⟨.reject 403 "Access denied", true⟩ :=
  ((allow_block_precedence ["US"] ["ZZ"] (some "203.0.113.1".data) "peer".data
      parseC lookupCA pubIP "CA" (by decide) (by decide) rfl).1
    (by decide)).2.1 (by decide)

theorem equalFold_empty_left (m : String) (h : m ≠ "") : equalFold "" m = false := by
  unfold equalFold
  cases hm : m.data with
  | nil =>
    exfalso
    apply h
    cases m
    simp at hm
    simp [hm]
  | cons c t => rfl

/-- C6 (amended): an empty country code returned by a successful lookup
matches only list members that are themselves empty — in particular it never
matches a non-empty member — and no annotation is written for it; on
pass-through after a successful lookup the code is attached under the fixed
key `X-GeoIP-Country` exactly when it is non-empty. -/
theorem empty_code_amended (allow block : List String)
    (xff : Option (List Char)) (remote : List Char)
    (parse : List Char → Option IPAddr) (lookup : IPAddr → LookupResult)
    (ip : IPAddr) (code : String)
    (hp : parse (extractedHost xff remote) = some ip)
    (hpub : isLocalOrInternalIP ip = false)
    (hlk : lookup ip = .success code) :
    (code = "" →
      (∀ m ∈ allow, m ≠ "" → equalFold code m = false) ∧
      (∀ m ∈ block, m ≠ "" → equalFold code m = false) ∧
      (∀ ann, (serveHTTP allow block xff remote parse lookup).outcome = .pass ann →
        ann = none)) ∧
    (∀ ann, (serveHTTP allow block xff remote parse lookup).outcome = .pass ann →
      (ann = some (geoHeaderKey, code) ↔ code ≠ "") ∧ (ann = none ↔ code = "")) := by
  have hs := serve_success allow block xff remote parse lookup ip code hp hpub hlk
  have hann : ∀ ann,
      (serveHTTP allow block xff remote parse lookup).outcome = .pass ann →
      ann = (if code = "" then none else some (geoHeaderKey, code)) := by
    intro ann h
    rw [hs] at h
    unfold decision passResult at h
    by_cases ha : 0 < allow.length <;>
      by_cases ham : allow.any (fun m => equalFold code m) = true <;>
      by_cases hb : 0 < block.length <;>
      by_cases hbm : block.any (fun m => equalFold code m) = true <;>
      simp_all
  constructor
  · intro hcode
    subst hcode
    refine ⟨fun m _ hm => equalFold_empty_left m hm,
            fun m _ hm => equalFold_empty_left m hm, ?_⟩
    intro ann h
    have := hann ann h
    simpa using this
  · intro ann h
    have := hann ann h
    by_cases hcode : code = ""
    · subst hcode
      simp at this
      simp [this]
    · rw [if_neg hcode] at this
      subst this
      simp [hcode]

theorem empty_code_amended_witness :
    equalFold "" "US" = false ∧ equalFold "" "CN" = false := by
  have h := empty_code_amended ["US"] ["CN"] (some "203.0.113.1".data) "r".data
    parseC lookupEmpty pubIP "" (by decide) (by decide) rfl
  exact ⟨(h.1 rfl).1 "US" (by decide) (by decide),
         (h.1 rfl).2.1 "CN" (by decide) (by decide)⟩

/-- C6 counterexample: with a block list containing the empty string, a
successful lookup returning the empty country code does match a list member
(`strings.EqualFold("", "")` is true) and the request is rejected, so list
matching against an empty code is not "never matches". -/
theorem empty_code_match_counterexample :
    equalFold "" "" = true ∧
    serveHTTP [] [""] (some "203.0.113.1".data) "peer".data parseC lookupEmpty =
      ⟨.reject 403 "Access denied", true⟩ := by
  constructor
  · rfl
  · decide

theorem decision_cases (allow block : List String) (code : String) :
    decision allow block code = passResult code ∨
    decision allow block code = ⟨.reject 403 "Access denied", true⟩ := by
  unfold decision
  split
  · split
    · exact Or.inl rfl
    · exact Or.inr rfl
  · split
    · split
      · exact Or.inr rfl
      · exact Or.inl rfl
    · exact Or.inl rfl

/-- C7: the only rejection this layer produces is the fixed status 403 with
the fixed body "Access denied"; every outcome is either a pass-through or
exactly that rejection. -/
theorem rejection_fixed_403 (allow block : List String)
    (xff : Option (List Char)) (remote : List Char)
    (parse : List Char → Option IPAddr) (lookup : IPAddr → LookupResult) :
    (∀ s b, (serveHTTP allow block xff remote parse lookup).outcome = .reject s b →
      s = 403 ∧ b = "Access denied" ∧
      (serveHTTP allow block xff remote parse lookup).outcome =
        .reject 403 "Access denied") ∧
    ((∃ ann, (serveHTTP allow block xff remote parse lookup).outcome = .pass ann) ∨
      (serveHTTP allow block xff remote parse lookup).outcome =
        .reject 403 "Access denied") := by
  rcases hparse : parse (extractedHost xff remote) with _ | ip
  · rw [serve_parse_none allow block xff remote parse lookup hparse]
    exact ⟨fun s b h => by simp at h, Or.inl ⟨none, rfl⟩⟩
  · cases hloc : isLocalOrInternalIP ip with
    | true =>
      rw [serve_local allow block xff remote parse lookup ip hparse hloc]
      exact ⟨fun s b h => by simp at h, Or.inl ⟨none, rfl⟩⟩
    | false =>
      cases hlk : lookup ip with
      | failure =>
        rw [serve_lookup_failure allow block xff remote parse lookup ip hparse hloc hlk]
        exact ⟨fun s b h => by simp at h, Or.inl ⟨none, rfl⟩⟩
      | success code =>
        rw [serve_success allow block xff remote parse lookup ip code hparse hloc hlk]
        rcases decision_cases allow block code with hd | hd <;> rw [hd]
        · exact ⟨fun s b h => by simp [passResult] at h,
            Or.inl ⟨if code = "" then none else some (geoHeaderKey, code), rfl⟩⟩
        · refine ⟨fun s b h => ?_, Or.inr rfl⟩
          simp only [Outcome.reject.injEq] at h
          exact ⟨h.1.symm, h.2.symm, rfl⟩

theorem rejection_fixed_403_witness :
    (serveHTTP ["US"] [] (some "203.0.113.1".data) "peer".data
      parseC lookupCA).outcome = .reject 403 "Access denied" :=
  ((rejection_fixed_403 ["US"] [] (some "203.0.113.1".data) "peer".data
      parseC lookupCA).1 403 "Access denied" (by decide)).2.2

/-- C5 (amended): the chain nests in the fixed order, outermost first:
optional logging (outermost when enabled), optional country filter (present
when geo-filtering is enabled and the database opened, before body-size
limiting and compression), body-size limiting, compression, the
request-start instrumentation, file-serving acceleration, caching, and
innermost the proxy; disabled optional layers are omitted entirely. -/
theorem chain_order_amended (o : HandlerOptions) (ok : Bool) :
    layers (NewHandler o ok).1 =
      (if o.logRequests = true then [Tag.loggingT] else []) ++
      (if o.geoIP2Enabled = true ∧ ok = true then [Tag.geoIPT] else []) ++
      (if 0 < o.maxRequestBody then [Tag.maxBytesT] else []) ++
      (if o.gzipCompressionEnabled = true then [Tag.gzipT] else []) ++
      [Tag.requestStartT, Tag.sendfileT, Tag.cacheT, Tag.proxyT] := by
  obtain ⟨bg, mc, mr, tu, xs, gz, fh, lr, ge, ac, bc⟩ := o
  cases lr <;> cases ge <;> cases ok <;> cases gz <;> by_cases hm : 0 < mr <;>
    simp [NewHandler, layers, hm]

/-- C5 counterexample: with logging (or any outer optional layer) enabled,
the request-start/timing instrumentation layer is not outermost — the chain
built from a full configuration starts with the logging layer. -/
theorem chain_order_counterexample :
    (layers (NewHandler optsAll true).1).head? ≠ some Tag.requestStartT := by
  decide

/-- C9: when geo-filtering is enabled but the database fails to open, the
filter layer is omitted and the chain is identical to the one built with
filtering disabled; the condition is reported once via diagnostics; chain
construction still yields a handler. -/
theorem geoip_open_failure_omits_layer (o : HandlerOptions) (okOther : Bool)
    (h : o.geoIP2Enabled = true) :
    (NewHandler o false).1 = (NewHandler { o with geoIP2Enabled := false } okOther).1 ∧
    (NewHandler o false).2 = [Diag.geoIPOpenFailed] := by
  obtain ⟨bg, mc, mr, tu, xs, gz, fh, lr, ge, ac, bc⟩ := o
  subst h
  constructor <;> simp [NewHandler]

theorem geoip_open_failure_omits_layer_witness :
    (NewHandler optsAll false).1 =
      (NewHandler { optsAll with geoIP2Enabled := false } true).1 ∧
    (NewHandler optsAll false).2 = [Diag.geoIPOpenFailed] :=
  geoip_open_failure_omits_layer optsAll true rfl

/-- C10: `FindGeoIP2Database` consults no filesystem contents: whenever
resolving the first candidate to an absolute path succeeds (absolute paths
are non-empty), that path is returned regardless of the later candidates,
and the empty string is returned exactly when every resolution fails. -/
theorem find_database_first_candidate (abs : String → Option String) :
    (∀ a, abs "./GeoLite2-Country.mmdb" = some a → a ≠ "" →
      FindGeoIP2Database abs = a) ∧
    ((∀ p x, abs p = some x → x ≠ "") →
      (FindGeoIP2Database abs = "" ↔ ∀ p ∈ possiblePaths, abs p = none)) := by
  constructor
  · intro a h hne
    simp [FindGeoIP2Database, possiblePaths, findFrom, h, hne]
  · intro hx
    constructor
    · intro hres
      rcases h1 : abs "./GeoLite2-Country.mmdb" with _ | a1
      · rcases h2 : abs "./data/GeoLite2-Country.mmdb" with _ | a2
        · rcases h3 : abs "./storage/GeoLite2-Country.mmdb" with _ | a3
          · rcases h4 : abs "./fixtures/GeoLite2-Country.mmdb" with _ | a4
            · intro p hp
              fin_cases hp <;> assumption
            · exfalso
              simp [FindGeoIP2Database, possiblePaths, findFrom,
                h1, h2, h3, h4, hx _ _ h4] at hres
          · exfalso
            simp [FindGeoIP2Database, possiblePaths, findFrom,
              h1, h2, h3, hx _ _ h3] at hres
        · exfalso
          simp [FindGeoIP2Database, possiblePaths, findFrom,
            h1, h2, hx _ _ h2] at hres
      · exfalso
        simp [FindGeoIP2Database, possiblePaths, findFrom, h1, hx _ _ h1] at hres
    · intro hall
      have h1 := hall "./GeoLite2-Country.mmdb" (by simp [possiblePaths])
      have h2 := hall "./data/GeoLite2-Country.mmdb" (by simp [possiblePaths])
      have h3 := hall "./storage/GeoLite2-Country.mmdb" (by simp [possiblePaths])
      have h4 := hall "./fixtures/GeoLite2-Country.mmdb" (by simp [possiblePaths])
      simp [FindGeoIP2Database, possiblePaths, findFrom, h1, h2, h3, h4]

theorem find_database_first_candidate_witness :
    FindGeoIP2Database absC = "/srv/GeoLite2-Country.mmdb" ∧
    (FindGeoIP2Database absFail = "" ↔ ∀ p ∈ possiblePaths, absFail p = none) :=
  ⟨(find_database_first_candidate absC).1 "/srv/GeoLite2-Country.mmdb" rfl (by decide),
   (find_database_first_candidate absFail).2 (fun p x h => Option.noConfusion h)⟩

theorem lastColonSplit_of_not_mem (s : List Char) (h : ':' ∉ s) :
    lastColonSplit s = none := by
  induction s with
  | nil => rfl
  | cons c rest ih =>
    rw [List.mem_cons, not_or] at h
    have hc : ¬ c = ':' := fun he => h.1 he.symm
    simp [lastColonSplit, ih h.2, hc]

theorem lastColonSplit_append (hs p : List Char) (hp : ':' ∉ p) :
    lastColonSplit (hs ++ ':' :: p) = some (hs, p) := by
  induction hs with
  | nil => simp [lastColonSplit, lastColonSplit_of_not_mem p hp]
  | cons c t ih => simp [lastColonSplit, ih]

theorem bracketSplit_append (hs rest : List Char) (hh : ']' ∉ hs) :
    bracketSplit (hs ++ ']' :: rest) = some (hs, rest) := by
  induction hs with
  | nil => simp [bracketSplit]
  | cons c t ih =>
    rw [List.mem_cons, not_or] at hh
    have hc : ¬ c = ']' := fun he => hh.1 he.symm
    simp [bracketSplit, hc, ih hh.2]

theorem bracketSplit_sound {t a b : List Char} (h : bracketSplit t = some (a, b)) :
    t = a ++ ']' :: b := by
  induction t generalizing a b with
  | nil => simp [bracketSplit] at h
  | cons c rest ih =>
    by_cases hc : c = ']'
    · subst hc
      simp [bracketSplit] at h
      rw [h.1, ← h.2]
      rfl
    · simp only [bracketSplit, if_neg hc] at h
      rcases hbs : bracketSplit rest with _ | ⟨a2, b2⟩
      · rw [hbs] at h; simp at h
      · rw [hbs] at h
        simp only [Option.some.injEq, Prod.mk.injEq] at h
        rw [← h.1, ← h.2]
        rw [ih hbs]
        rfl

/-- C8: the classified address is the forwarding header value when present
and non-empty, otherwise the peer address; the chosen value has any trailing
port stripped before parsing (both the plain `host:port` and the bracketed
`[host]:port` forms), and is left unchanged when no port is present. -/
theorem address_extraction :
    (∀ v remote, v ≠ [] → extractedHost (some v) remote = hostOf v) ∧
    (∀ remote, extractedHost none remote = hostOf remote ∧
      extractedHost (some []) remote = hostOf remote) ∧
    (∀ hs ps, ':' ∉ hs → '[' ∉ hs → ']' ∉ hs → ':' ∉ ps → '[' ∉ ps → ']' ∉ ps →
      hostOf (hs ++ ':' :: ps) = hs) ∧
    (∀ hs ps, '[' ∉ hs → ']' ∉ hs → ':' ∉ ps → '[' ∉ ps → ']' ∉ ps →
      hostOf ('[' :: (hs ++ ']' :: ':' :: ps)) = hs) ∧
    (∀ s, ':' ∉ s → hostOf s = s) := by
  refine ⟨?_, ?_, ?_, ?_, ?_⟩
  · intro v remote hv
    simp [extractedHost, chosenAddr, hv]
  · intro remote
    exact ⟨rfl, rfl⟩
  · intro hs ps h1 h2 h3 h4 h5 h6
    have hhead : ¬ (hs ++ ':' :: ps).head? = some '[' := by
      cases hs with
      | nil => simp
      | cons c t =>
        simp only [List.cons_append, List.head?_cons, Option.some.injEq]
        intro hc
        exact h2 (by simp [hc])
    unfold hostOf splitHostPort
    rw [if_neg hhead, lastColonSplit_append hs ps h4]
    simp [h1, h2, h3, h5, h6]
  · intro hs ps h2 h3 h4 h5 h6
    unfold hostOf splitHostPort
    have hhead : ('[' :: (hs ++ ']' :: ':' :: ps)).head? = some '[' := rfl
    rw [if_pos hhead]
    have htail : ('[' :: (hs ++ ']' :: ':' :: ps)).tail = hs ++ ']' :: ':' :: ps := rfl
    rw [htail, bracketSplit_append hs (':' :: ps) h3]
    simp [h2, h4, h5, h6]
  · intro s hcol
    unfold hostOf splitHostPort
    by_cases hh : s.head? = some '['
    · rw [if_pos hh]
      rcases hbs : bracketSplit s.tail with _ | ⟨a, b⟩
      · rfl
      · have hsub := bracketSplit_sound hbs
        cases b with
        | nil => rfl
        | cons c p =>
          have hc : ¬ c = ':' := by
            intro hce
            subst hce
            apply hcol
            have hmem : ':' ∈ s.tail := by
              rw [hsub]; simp
            cases s with
            | nil => simp at hh
            | cons d t => exact List.mem_cons_of_mem d (by simpa using hmem)
          simp [hc]
    · rw [if_neg hh, lastColonSplit_of_not_mem s hcol]

theorem address_extraction_witness :
    extractedHost (some "1.2.3.4:80".data) "zz".data = hostOf "1.2.3.4:80".data ∧
    hostOf ("1.2.3.4".data ++ ':' :: "80".data) = "1.2.3.4".data ∧
    hostOf ('[' :: ("2001:db8::1".data ++ ']' :: ':' :: "443".data)) =
      "2001:db8::1".data ∧
    hostOf "8.8.8.8".data = "8.8.8.8".data :=
  ⟨address_extraction.1 "1.2.3.4:80".data "zz".data (by decide),
   address_extraction.2.2.1 "1.2.3.4".data "80".data (by decide) (by decide)
     (by decide) (by decide) (by decide) (by decide),
   address_extraction.2.2.2.1 "2001:db8::1".data "443".data (by decide) (by decide)
     (by decide) (by decide) (by decide),
   address_extraction.2.2.2.2 "8.8.8.8".data (by decide)⟩

end GeoFilter
